import Mathlib

/-!
Verification of the MusicLinker cog (src/musiclinker.py) against its
natural-language specification.

The development shallowly embeds the pure core of the program:
* the two URL-extraction regular expressions `SPOTIFY_RE` and `YOUTUBE_RE`
  (embedded as deterministic matchers that implement exactly the backtracking
  behaviour of the Python `re` patterns on the character classes involved),
* the title-cleaning pipeline `_clean_yt_title`,
* the search-link builders (with `urllib.parse.quote` / `quote_plus`),
* the embed builders, the `on_message` reply-assembly loop,
* the settings commands, and the oEmbed fetch error handling.

Characters are modelled as Lean `Char` (Unicode scalars); the `\s`, `\w`
and case-folding classes of Python's `re` are modelled on the ASCII range,
which covers every character class test the patterns perform on the
ASCII-only alphabets they capture.  Strings are processed as `List Char`.
-/

namespace MusicLinker

/-- Whitespace class of Python's regex `\s` (ASCII part): space, tab,
newline, carriage return, vertical tab, form feed. -/
def isPySpace (c : Char) : Bool :=
  c = ' ' || c = '\t' || c = '\n' || c = '\r' || c = '\x0b' || c = '\x0c'

/-- Character class `[a-zA-Z0-9]` used by `SPOTIFY_RE` for track IDs. -/
def isAlnumChar (c : Char) : Bool :=
  ('a' ≤ c && c ≤ 'z') || ('A' ≤ c && c ≤ 'Z') || ('0' ≤ c && c ≤ '9')

/-- Character class `[a-zA-Z0-9_-]` used by `YOUTUBE_RE` for video IDs. -/
def isIdChar (c : Char) : Bool :=
  isAlnumChar c || c = '_' || c = '-'

/-- Character class `[a-z]` used in the optional `intl-[a-z]{2}/` prefix. -/
def isLowerAZ (c : Char) : Bool :=
  'a' ≤ c && c ≤ 'z'

/-- Matching a literal character sequence: `expectL lit cs` consumes `lit`
from the front of `cs`, failing if any character differs. -/
def expectL : List Char → List Char → Option (List Char)
  | [], cs => some cs
  | _ :: _, [] => none
  | l :: ls, c :: cs => if c = l then expectL ls cs else none

/-- Matching an exact-count character class (regex `[...]{n}`): take exactly
`n` characters satisfying `p`, returning them and the rest. -/
def takeCount : Nat → (Char → Bool) → List Char → Option (List Char × List Char)
  | 0, _, cs => some ([], cs)
  | _ + 1, _, [] => none
  | n + 1, p, c :: cs =>
    if p c then (takeCount n p cs).map (fun r => (c :: r.1, r.2)) else none

/-- Optional `s` of `https?`.  The choice is deterministic: when the next
character is `s` the regex engine consumes it (greedy), and dropping it
cannot help, since the following literal starts with `:`. -/
def optS (cs : List Char) : List Char :=
  match cs with
  | c :: rest => if c = 's' then rest else cs
  | [] => []

/-- Test for the optional group `intl-[a-z]{2}/` of `SPOTIFY_RE`. -/
def intlCheck (cs : List Char) : Bool :=
  cs.take 5 = ['i', 'n', 't', 'l', '-'] &&
    (match cs.drop 5 with
     | a :: b :: s :: _ => isLowerAZ a && isLowerAZ b && s = '/'
     | _ => false)

/-- Optional group `(?:intl-[a-z]{2}/)?`.  Deterministic: consuming the
group cannot conflict with the following literal `track/`, which starts
with a different character. -/
def optIntl (cs : List Char) : List Char :=
  if intlCheck cs then cs.drop 8 else cs

/-- Single attempt of `SPOTIFY_RE` at the start of `cs`
(pattern `https?://open\.spotify\.com/(?:intl-[a-z]{2}/)?track/([a-zA-Z0-9]{22})\S*`).
Returns the captured 22-character ID and the rest of the input after the
match; the final greedy `\S*` consumes every following non-whitespace
character. -/
def spotifyMatchAt (cs : List Char) : Option (List Char × List Char) :=
  (expectL ("http".toList) cs).bind fun cs1 =>
  (expectL ("://open.spotify.com/".toList) (optS cs1)).bind fun cs2 =>
  (expectL ("track/".toList) (optIntl cs2)).bind fun cs3 =>
  (takeCount 22 isAlnumChar cs3).map fun r =>
    (r.1, r.2.dropWhile (fun c => !isPySpace c))

/-- Test for the optional group `(?:www\.)?` of `YOUTUBE_RE`. -/
def wwwCheck (cs : List Char) : Bool :=
  cs.take 4 = ['w', 'w', 'w', '.']

/-- Optional group `(?:www\.)?`.  Deterministic: the following literal
starts with `y`, so dropping a present `www.` cannot help. -/
def optWww (cs : List Char) : List Char :=
  if wwwCheck cs then cs.drop 4 else cs

/-- Test used while resolving `[^\s]*v=([a-zA-Z0-9_-]{11})`: at offset `i`
of the non-whitespace run there is `v=` followed by 11 ID characters. -/
def vOk (run : List Char) (i : Nat) : Bool :=
  run[i]? = some 'v' && run[i + 1]? = some '=' &&
    ((run.drop (i + 2)).take 11).length = 11 &&
    ((run.drop (i + 2)).take 11).all isIdChar

/-- Backtracking search of the greedy `[^\s]*`: the engine tries the longest
prefix first, so the *largest* offset with `v=` followed by a valid ID wins.
`vDescend run i` scans offsets `i, i-1, ..., 0`. -/
def vDescend (run : List Char) : Nat → Option Nat
  | 0 => if vOk run 0 then some 0 else none
  | i + 1 => if vOk run (i + 1) then some (i + 1) else vDescend run i

/-- Matching `[^\s]*v=([a-zA-Z0-9_-]{11})\S*`: within the maximal
non-whitespace run, find the last `v=` followed by 11 ID characters;
the match then extends to the end of the run (greedy `\S*`). -/
def vScan (cs : List Char) : Option (List Char × List Char) :=
  let run := cs.takeWhile (fun c => !isPySpace c)
  if run.length < 13 then none
  else
    match vDescend run (run.length - 13) with
    | some i => some ((run.drop (i + 2)).take 11, cs.drop run.length)
    | none => none

/-- Ordered alternation `(?:A|B|C)`: the regex engine commits to the first
alternative that lets the rest of the pattern succeed. -/
def firstSome {α : Type} (a b c : Option α) : Option α :=
  match a with
  | some x => some x
  | none =>
    match b with
    | some x => some x
    | none => c

/-- Single attempt of `YOUTUBE_RE` at the start of `cs` (pattern
`https?://(?:(?:www\.)?youtube\.com/watch\?[^\s]*v=|youtu\.be/|music\.youtube\.com/watch\?[^\s]*v=)([a-zA-Z0-9_-]{11})\S*`). -/
def youtubeMatchAt (cs : List Char) : Option (List Char × List Char) :=
  (expectL ("http".toList) cs).bind fun cs1 =>
  (expectL ("://".toList) (optS cs1)).bind fun cs2 =>
  firstSome
    ((expectL ("youtube.com/watch?".toList) (optWww cs2)).bind vScan)
    ((expectL ("youtu.be/".toList) cs2).bind fun r =>
      (takeCount 11 isIdChar r).map fun p =>
        (p.1, p.2.dropWhile (fun c => !isPySpace c)))
    ((expectL ("music.youtube.com/watch?".toList) cs2).bind vScan)

/-- Scanning loop of `re.finditer`: try a match at every position, left to
right; after a match, continue after its end (non-overlapping).  `fuel`
bounds the recursion; every successful match of the two patterns consumes
at least one character, so `length + 1` fuel always suffices. -/
def scanAux (matchAt : List Char → Option (List Char × List Char)) :
    Nat → List Char → List (List Char)
  | 0, _ => []
  | _ + 1, [] => []
  | fuel + 1, c :: rest =>
    match matchAt (c :: rest) with
    | some r => r.1 :: scanAux matchAt fuel r.2
    | none => scanAux matchAt fuel rest

/-- All Spotify track IDs found in a text, in extraction order
(`SPOTIFY_RE.finditer`, group 1 of each match). -/
def spotifyFindAll (cs : List Char) : List (List Char) :=
  scanAux spotifyMatchAt (cs.length + 1) cs

/-- All YouTube video IDs found in a text, in extraction order
(`YOUTUBE_RE.finditer`, group 1 of each match). -/
def youtubeFindAll (cs : List Char) : List (List Char) :=
  scanAux youtubeMatchAt (cs.length + 1) cs

/-! ## Title cleaning (`_clean_yt_title`) -/

/-- Word-character class of Python's regex `\w` (ASCII part), used for the
`\b` boundaries of `YT_TITLE_KEYWORDS`. -/
def isWordChar (c : Char) : Bool :=
  isAlnumChar c || c = '_'

/-- Opening-bracket class `[\(\[\{]` of `YT_TITLE_NOISE`. -/
def isOpenerChar (c : Char) : Bool :=
  c = '(' || c = '[' || c = '\x7b'

/-- Closing-bracket class `[\)\]\}]` of `YT_TITLE_NOISE`.  Note the class is
independent of which opening bracket started the match: the pattern accepts
any closer, matching or not. -/
def isCloserChar (c : Char) : Bool :=
  c = ')' || c = ']' || c = '\x7d'

/-- Index of the first closing bracket, as found by the non-greedy `.*?`:
the nearest closer of any type; `.` does not match a newline, so a newline
before any closer makes the attempt fail. -/
def findCloserIdx : List Char → Option Nat
  | [] => none
  | c :: rest =>
    if isCloserChar c then some 0
    else if c = '\n' then none
    else (findCloserIdx rest).map (· + 1)

/-- Substitution loop of `YT_TITLE_NOISE.sub("", ·)` (pattern
`(?i)[\(\[\{].*?[\)\]\}]`): at each position, if an opening bracket starts a
match, delete up to the nearest closer and continue after it; otherwise keep
the character.  `fuel` bounds the recursion (`length + 1` always suffices,
as each step consumes at least one character). -/
def noiseSubAux : Nat → List Char → List Char
  | 0, cs => cs
  | _ + 1, [] => []
  | fuel + 1, c :: rest =>
    if isOpenerChar c then
      match findCloserIdx rest with
      | some j => noiseSubAux fuel (rest.drop (j + 1))
      | none => c :: noiseSubAux fuel rest
    else c :: noiseSubAux fuel rest

/-- Application of `YT_TITLE_NOISE.sub("", title)`. -/
def noiseSub (cs : List Char) : List Char :=
  noiseSubAux (cs.length + 1) cs

/-- Case-insensitive literal matching (the `(?i)` flag, ASCII folding): the
pattern text is given in lowercase. -/
def ciLit : List Char → List Char → Option (List Char)
  | [], cs => some cs
  | _ :: _, [] => none
  | l :: ls, c :: cs => if c.toLower = l then ciLit ls cs else none

/-- Greedy `\s*` between keyword words.  Deterministic here: every
continuation in the pattern starts with a non-space character, so
backtracking to a shorter prefix can never help. -/
def munchSpace (cs : List Char) : List Char :=
  cs.dropWhile isPySpace

/-- Trailing `\b` of `YT_TITLE_KEYWORDS`: all alternatives end in a word
character, so the boundary holds exactly when the rest is empty or starts
with a non-word character. -/
def guardBoundary (r : List Char) : Option (List Char) :=
  if match r with | [] => true | c :: _ => !isWordChar c then some r else none

/-- Ordered choice between two attempts (regex alternation or an optional
group: the first alternative that lets the rest succeed wins). -/
def orElse2 {α : Type} : Option α → Option α → Option α
  | some x, _ => some x
  | none, b => b

/-- Alternative `official\s*(?:music\s*)?video` (with trailing `\b`).  The
optional `music\s*` group is tried first (greedy); if the rest then fails,
the engine retries without it. -/
def altOfficialVideo (cs : List Char) : Option (List Char) :=
  (ciLit "official".toList cs).bind fun r1 =>
    let r2 := munchSpace r1
    orElse2
      ((ciLit "music".toList r2).bind fun r3 =>
        (ciLit "video".toList (munchSpace r3)).bind guardBoundary)
      ((ciLit "video".toList r2).bind guardBoundary)

/-- Alternative `lyric\s*video`. -/
def altLyricVideo (cs : List Char) : Option (List Char) :=
  (ciLit "lyric".toList cs).bind fun r =>
    (ciLit "video".toList (munchSpace r)).bind guardBoundary

/-- Alternative `official\s*audio`. -/
def altOfficialAud (cs : List Char) : Option (List Char) :=
  (ciLit "official".toList cs).bind fun r =>
    (ciLit "audio".toList (munchSpace r)).bind guardBoundary

/-- Alternative `audio`. -/
def altAud (cs : List Char) : Option (List Char) :=
  (ciLit "audio".toList cs).bind guardBoundary

/-- Alternative `visualizer`. -/
def altVisualizer (cs : List Char) : Option (List Char) :=
  (ciLit "visualizer".toList cs).bind guardBoundary

/-- Alternative `performance\s*video`. -/
def altPerfVideo (cs : List Char) : Option (List Char) :=
  (ciLit "performance".toList cs).bind fun r =>
    (ciLit "video".toList (munchSpace r)).bind guardBoundary

/-- Alternative `clip\s*officiel`. -/
def altClipOfficiel (cs : List Char) : Option (List Char) :=
  (ciLit "clip".toList cs).bind fun r =>
    (ciLit "officiel".toList (munchSpace r)).bind guardBoundary

/-- Alternative `remaster(?:ed)?`: the greedy optional `ed` is tried first;
if the trailing boundary fails, the engine retries without it. -/
def altRemaster (cs : List Char) : Option (List Char) :=
  (ciLit "remaster".toList cs).bind fun r =>
    orElse2 ((ciLit "ed".toList r).bind guardBoundary) (guardBoundary r)

/-- Alternative `hd`. -/
def altHd (cs : List Char) : Option (List Char) :=
  (ciLit "hd".toList cs).bind guardBoundary

/-- Alternative `hq`. -/
def altHq (cs : List Char) : Option (List Char) :=
  (ciLit "hq".toList cs).bind guardBoundary

/-- Alternative `4k`. -/
def alt4k (cs : List Char) : Option (List Char) :=
  (ciLit "4k".toList cs).bind guardBoundary

/-- Alternative `mv`. -/
def altMv (cs : List Char) : Option (List Char) :=
  (ciLit "mv".toList cs).bind guardBoundary

/-- Attempt of `YT_TITLE_KEYWORDS` at one position (the leading `\b` has
already been checked by the caller): the twelve alternatives in the
pattern's order.  Returns the rest after the match. -/
def kwTry (cs : List Char) : Option (List Char) :=
  orElse2 (altOfficialVideo cs) (orElse2 (altLyricVideo cs)
    (orElse2 (altOfficialAud cs) (orElse2 (altAud cs)
      (orElse2 (altVisualizer cs) (orElse2 (altPerfVideo cs)
        (orElse2 (altClipOfficiel cs) (orElse2 (altRemaster cs)
          (orElse2 (altHd cs) (orElse2 (altHq cs)
            (orElse2 (alt4k cs) (altMv cs)))))))))))

/-- Substitution loop of `YT_TITLE_KEYWORDS.sub("", ·)`.  `prevWord` records
whether the character before the current position (in the original string)
is a word character; the leading `\b` requires it not to be, since every
alternative starts with a word character.  After a removal, scanning resumes
after the match, whose last character is always a word character. -/
def kwSubAux : Nat → Bool → List Char → List Char
  | 0, _, cs => cs
  | _ + 1, _, [] => []
  | fuel + 1, prevWord, c :: rest =>
    if prevWord then
      c :: kwSubAux fuel (isWordChar c) rest
    else
      match kwTry (c :: rest) with
      | some r => kwSubAux fuel true r
      | none => c :: kwSubAux fuel (isWordChar c) rest

/-- Application of `YT_TITLE_KEYWORDS.sub("", ·)` (a string starts at a
non-word position). -/
def kwSub (cs : List Char) : List Char :=
  kwSubAux (cs.length + 1) false cs

/-- Separator class `[-–—|/\\]` of the edge-collapsing substitutions. -/
def isSepChar (c : Char) : Bool :=
  c = '-' || c = '–' || c = '—' || c = '|' || c = '/' || c = '\\'

/-- Substitution `re.sub(r"\s*[-–—|/\\]+\s*$", "", ·)`.  The single possible
match is the longest suffix of shape `\s* [seps]+ \s*`: trailing whitespace,
then a separator run, then more whitespace.  When the last non-whitespace
character is not a separator there is no match and the string is unchanged
(in particular plain trailing whitespace is kept). -/
def stripTrailSep (cs : List Char) : List Char :=
  let r1 := cs.reverse.dropWhile isPySpace
  match r1 with
  | c :: _ =>
    if isSepChar c then ((r1.dropWhile isSepChar).dropWhile isPySpace).reverse
    else cs
  | [] => cs

/-- Substitution `re.sub(r"^\s*[-–—|/\\]+\s*", "", ·)`, the anchored leading
counterpart. -/
def stripLeadSep (cs : List Char) : List Char :=
  let r1 := cs.dropWhile isPySpace
  match r1 with
  | c :: _ =>
    if isSepChar c then (r1.dropWhile isSepChar).dropWhile isPySpace
    else cs
  | [] => cs

/-- Substitution loop of `re.sub(r"\s{2,}", " ", ·)`: a run of two or more
whitespace characters becomes a single space; an isolated whitespace
character is kept as it is. -/
def collapseAux : Nat → List Char → List Char
  | 0, cs => cs
  | _ + 1, [] => []
  | fuel + 1, c :: rest =>
    if isPySpace c then
      match rest with
      | d :: _ =>
        if isPySpace d then ' ' :: collapseAux fuel (rest.dropWhile isPySpace)
        else c :: collapseAux fuel rest
      | [] => [c]
    else c :: collapseAux fuel rest

/-- Application of `re.sub(r"\s{2,}", " ", ·)`. -/
def collapseWs (cs : List Char) : List Char :=
  collapseAux (cs.length + 1) cs

/-- Python's `str.strip()` (ASCII whitespace part). -/
def pyStrip (cs : List Char) : List Char :=
  ((cs.dropWhile isPySpace).reverse.dropWhile isPySpace).reverse

/-- The cleaning pipeline of `_clean_yt_title` before the final fallback:
bracket-noise removal, keyword removal, trailing- then leading-separator
stripping, whitespace collapsing, and a final strip. -/
def cleanCore (cs : List Char) : List Char :=
  pyStrip (collapseWs (stripLeadSep (stripTrailSep (kwSub (noiseSub cs)))))

/-- Embedding of `_clean_yt_title`: the cleaning pipeline, falling back to
the stripped original title when the result is empty (`cleaned or
title.strip()`). -/
def clean_yt_title (cs : List Char) : List Char :=
  let cleaned := cleanCore cs
  if cleaned = [] then pyStrip cs else cleaned

/-- String-level wrapper of `_clean_yt_title`. -/
def cleanYt (s : String) : String :=
  ⟨clean_yt_title s.data⟩

/-! ### The claim's reading of step 1 (matching delimiters)

Claim C2 states step 1 removes substrings enclosed in *matching* `()`,
`[]` or `{}` pairs.  The definitions below follow those words: from an
opening bracket, the non-greedy search looks for the nearest closing
bracket *of the same type*.  They exist to be compared with the code's
behaviour, which accepts any closing bracket. -/

/-- Closing bracket of the same type, per the claim's words. -/
def matchingCloser (c : Char) : Char :=
  if c = '(' then ')' else if c = '[' then ']' else '\x7d'

/-- Index of the nearest closing bracket of the given type. -/
def findSameCloserIdx (m : Char) : List Char → Option Nat
  | [] => none
  | c :: rest =>
    if c = m then some 0
    else (findSameCloserIdx m rest).map (· + 1)

/-- Step 1 as the claim words it: remove from each opening bracket to the
nearest closing bracket of the same type (non-greedy). -/
def noiseSubSpecAux : Nat → List Char → List Char
  | 0, cs => cs
  | _ + 1, [] => []
  | fuel + 1, c :: rest =>
    if isOpenerChar c then
      match findSameCloserIdx (matchingCloser c) rest with
      | some j => noiseSubSpecAux fuel (rest.drop (j + 1))
      | none => c :: noiseSubSpecAux fuel rest
    else c :: noiseSubSpecAux fuel rest

/-- The cleaner as claim C2 describes it: identical pipeline, but step 1
removes only substrings enclosed in matching delimiter pairs. -/
def cleanSpecMatching (cs : List Char) : List Char :=
  let cleaned := pyStrip (collapseWs (stripLeadSep (stripTrailSep
    (kwSub (noiseSubSpecAux (cs.length + 1) cs)))))
  if cleaned = [] then pyStrip cs else cleaned

/-! ## URL percent-encoding (`urllib.parse.quote` / `quote_plus`) -/

/-- UTF-8 encoding of one Unicode scalar, as a list of byte values. -/
def utf8Bytes (c : Char) : List Nat :=
  let n := c.toNat
  if n < 0x80 then [n]
  else if n < 0x800 then [0xC0 + n / 64, 0x80 + n % 64]
  else if n < 0x10000 then
    [0xE0 + n / 4096, 0x80 + n / 64 % 64, 0x80 + n % 64]
  else
    [0xF0 + n / 262144, 0x80 + n / 4096 % 64, 0x80 + n / 64 % 64, 0x80 + n % 64]

/-- Uppercase hexadecimal digit, as used by `urllib.parse.quote`. -/
def hexDigitU (n : Nat) : Char :=
  if n < 10 then Char.ofNat (48 + n) else Char.ofNat (55 + n)

/-- Percent-encoding `%XX` of one byte. -/
def pctByte (b : Nat) : List Char :=
  ['%', hexDigitU (b / 16), hexDigitU (b % 16)]

/-- The characters `urllib.parse` never quotes
(`ALWAYS_SAFE`: ASCII letters, digits, and `_.-~`). -/
def isAlwaysSafe (c : Char) : Bool :=
  isAlnumChar c || c = '_' || c = '.' || c = '-' || c = '~'

/-- Per-character behaviour of `urllib.parse.quote_plus(·)` (default
`safe=''`): a space becomes `+`, always-safe characters stay, everything
else is percent-encoded byte by byte. -/
def quotePlusChar (c : Char) : List Char :=
  if c = ' ' then ['+']
  else if isAlwaysSafe c then [c]
  else (utf8Bytes c).flatMap pctByte

/-- Embedding of `urllib.parse.quote_plus`. -/
def quotePlus (s : String) : String :=
  ⟨s.data.flatMap quotePlusChar⟩

/-- Per-character behaviour of `urllib.parse.quote(·)` with the default
`safe='/'`: `/` and always-safe characters stay (a space is
percent-encoded, not turned into `+`). -/
def quoteChar (c : Char) : List Char :=
  if isAlwaysSafe c || c = '/' then [c]
  else (utf8Bytes c).flatMap pctByte

/-- Embedding of `urllib.parse.quote` with its default `safe='/'`. -/
def quoteDef (s : String) : String :=
  ⟨s.data.flatMap quoteChar⟩

/-! ## Search-link builders -/

/-- Embedding of `_yt_music_search`. -/
def yt_music_search (query : String) : String :=
  "https://music.youtube.com/search?q=" ++ quotePlus query

/-- Embedding of `_yt_search`. -/
def yt_search (query : String) : String :=
  "https://www.youtube.com/results?search_query=" ++ quotePlus query

/-- Embedding of `_spotify_search`. -/
def spotify_search (query : String) : String :=
  "https://open.spotify.com/search/" ++ quoteDef query

/-- Embedding of `_brave_lyrics`: the literal suffix `" lyrics"` is appended
to the query before encoding. -/
def brave_lyrics (query : String) : String :=
  "https://search.brave.com/search?q=" ++ quotePlus (query ++ " lyrics")

/-! ## Embed building and the `on_message` reply assembly -/

/-- Colour constants of the cog. -/
def SPOTIFY_GREEN : Nat := 0x1DB954

/-- Colour constant for YouTube embeds. -/
def YOUTUBE_RED : Nat := 0xFF0000

/-- Discord embed, reduced to the data the cog sets: title, optional
description, (name, value, inline) fields, optional thumbnail URL, footer
text and colour. -/
structure Embed where
  title : String
  description : Option String
  fields : List (String × String × Bool)
  thumbnail : Option String
  footer : String
  color : Nat
  deriving DecidableEq, Repr

/-- Embedding of `_build_spotify_embed`.  Pythonic truthiness: the
thumbnail is set only when `show_thumb` holds and the URL is neither
`None` nor empty. -/
def build_spotify_embed (title : String) (thumbnail : Option String)
    (show_thumb : Bool) : Embed :=
  let yt_music := yt_music_search title
  let yt_regular := yt_search title
  let brave := brave_lyrics title
  { title := "🎵  " ++ title
    description := none
    fields :=
      [("🔴  YouTube",
        "[YouTube Music](" ++ yt_music ++ ")\n[YouTube](" ++ yt_regular ++ ")",
        true),
       ("📝  Lyrics", "[Brave Search](" ++ brave ++ ")", true)]
    thumbnail :=
      if show_thumb then
        match thumbnail with
        | some t => if t = "" then none else some t
        | none => none
      else none
    footer := "MusicLinker  •  Spotify ➜ YouTube"
    color := SPOTIFY_GREEN }

/-- Embedding of `_build_youtube_embed`: the displayed title is the raw
title; the cleaned title only feeds the Spotify search and lyrics links;
the description is set only for a non-empty author. -/
def build_youtube_embed (raw_title author : String) (thumbnail : Option String)
    (show_thumb : Bool) : Embed :=
  let clean := cleanYt raw_title
  let spotify := spotify_search clean
  let brave := brave_lyrics clean
  { title := "🎵  " ++ raw_title
    description := if author = "" then none else some ("by **" ++ author ++ "**")
    fields :=
      [("🟢  Spotify", "[Search on Spotify](" ++ spotify ++ ")", true),
       ("📝  Lyrics", "[Brave Search](" ++ brave ++ ")", true)]
    thumbnail :=
      if show_thumb then
        match thumbnail with
        | some t => if t = "" then none else some t
        | none => none
      else none
    footer := "MusicLinker  •  YouTube ➜ Spotify"
    color := YOUTUBE_RED }

/-- Per-guild settings snapshot read by `on_message` (config defaults:
`enabled = True`, `show_thumbnail = True`, `max_links_per_message = 3`). -/
structure MsgSettings where
  enabled : Bool
  showThumbnail : Bool
  maxLinks : Nat
  deriving DecidableEq, Repr

/-- Resolved Spotify oEmbed data, after the `data.get` extraction of
`on_message` (`title`, optional `thumbnail_url`). -/
structure SpotifyMeta where
  title : String
  thumbnailUrl : Option String

/-- Resolved YouTube oEmbed data, after the `data.get` extraction of
`on_message` (`title`, `author_name` defaulted to `""`, optional
`thumbnail_url`). -/
structure YoutubeMeta where
  title : String
  authorName : String
  thumbnailUrl : Option String

/-- The Spotify loop of `on_message`: for each extracted track ID, stop
when the embed list has reached `max_links`; otherwise fetch, and append an
embed only when metadata is available (a failed fetch is skipped and does
not count). -/
def spotifyPass (fetchS : List Char → Option SpotifyMeta) (showThumb : Bool)
    (maxLinks : Nat) : List (List Char) → List Embed → List Embed
  | [], acc => acc
  | id :: rest, acc =>
    if maxLinks ≤ acc.length then acc
    else
      match fetchS id with
      | some m =>
        spotifyPass fetchS showThumb maxLinks rest
          (acc ++ [build_spotify_embed m.title m.thumbnailUrl showThumb])
      | none => spotifyPass fetchS showThumb maxLinks rest acc

/-- The YouTube loop of `on_message`, run after the Spotify loop on the
same embed list (the two kinds share one cap). -/
def youtubePass (fetchY : List Char → Option YoutubeMeta) (showThumb : Bool)
    (maxLinks : Nat) : List (List Char) → List Embed → List Embed
  | [], acc => acc
  | id :: rest, acc =>
    if maxLinks ≤ acc.length then acc
    else
      match fetchY id with
      | some m =>
        youtubePass fetchY showThumb maxLinks rest
          (acc ++ [build_youtube_embed m.title m.authorName m.thumbnailUrl showThumb])
      | none => youtubePass fetchY showThumb maxLinks rest acc

/-- Reply assembly of `on_message` (the part after the bot/guild/command
guards): with the feature disabled nothing is produced; otherwise all
Spotify matches are processed first, then all YouTube matches, against the
one shared `max_links` cap.  The metadata fetches are abstracted as
oracles from an ID to an optional resolved record. -/
def onMessageEmbeds (settings : MsgSettings)
    (fetchS : List Char → Option SpotifyMeta)
    (fetchY : List Char → Option YoutubeMeta) (content : List Char) :
    List Embed :=
  if settings.enabled then
    youtubePass fetchY settings.showThumbnail settings.maxLinks
      (youtubeFindAll content)
      (spotifyPass fetchS settings.showThumbnail settings.maxLinks
        (spotifyFindAll content) [])
  else []

/-! ## Settings commands -/

/-- Stored per-guild configuration record. -/
structure GuildConf where
  enabled : Bool
  show_thumbnail : Bool
  max_links_per_message : Int
  deriving DecidableEq, Repr

/-- Registered defaults of the config (`default_guild`). -/
def defaultGuildConf : GuildConf :=
  { enabled := true, show_thumbnail := true, max_links_per_message := 3 }

/-- One admin settings command: `ml toggle`, `ml thumbnail`, or
`ml maxlinks <limit>` with an arbitrary integer argument. -/
inductive SettingsCmd where
  | toggle
  | thumbnail
  | maxlinks (limit : Int)

/-- Effect of one settings command on the stored record.  `ml_maxlinks`
clamps the requested limit with `max(1, min(10, limit))` before storing. -/
def applyCmd (conf : GuildConf) : SettingsCmd → GuildConf
  | .toggle => { conf with enabled := !conf.enabled }
  | .thumbnail => { conf with show_thumbnail := !conf.show_thumbnail }
  | .maxlinks limit =>
    { conf with max_links_per_message := max 1 (min 10 limit) }

/-- Stored record after a sequence of settings commands, starting from the
registered defaults. -/
def applyCmds (cmds : List SettingsCmd) : GuildConf :=
  cmds.foldl applyCmd defaultGuildConf

/-! ## oEmbed fetch error handling -/

/-- JSON value, as far as the oEmbed dictionaries need: `null`, booleans,
integers and strings (nested arrays/objects never reach the keys the cog
reads). -/
inductive JsonVal where
  | null
  | bool (b : Bool)
  | num (n : Int)
  | str (s : String)
  deriving DecidableEq, Repr

/-- Parsed JSON object: an association of keys to values. -/
def JsonDict := List (String × JsonVal)

/-- Python `dict.get(key)`: the stored value when the key is present
(even when that value is `null`), otherwise `None`. -/
def dictGet (d : JsonDict) (key : String) : Option JsonVal :=
  match d.find? (fun kv => kv.1 = key) with
  | some kv => some kv.2
  | none => none

/-- Python `dict.get(key, default)`: the stored value when the key is
present (even when that value is `null`), otherwise the default. -/
def dictGetD (d : JsonDict) (key : String) (dflt : JsonVal) : JsonVal :=
  match dictGet d key with
  | some v => v
  | none => dflt

/-- Outcome of the single HTTP GET a fetch helper performs: a transport
error, a timeout (the request carries `ClientTimeout(total=10)`), or a
response with its status and its body's JSON parse (with `none` when
parsing raises). -/
inductive FetchOutcome where
  | transportError
  | timeout
  | response (status : Nat) (body : Option JsonDict) (contentType : Option String)

/-- Timeout passed to both oEmbed requests (`ClientTimeout(total=10)`). -/
def oembedTimeoutTotal : Nat := 10

/-- Error handling shared by `_fetch_spotify_oembed` and
`_fetch_youtube_oembed`: any raised error (transport or timeout) is caught
and yields `None`; a response is parsed as JSON with `content_type=None`
(the declared content type is ignored) only when the status is exactly 200;
every other status yields `None`.  Exactly one request outcome is consumed:
there is no retry. -/
def fetchOembed : FetchOutcome → Option JsonDict
  | .transportError => none
  | .timeout => none
  | .response status body _ => if status = 200 then body else none

/-- Request URL built by `_fetch_spotify_oembed` from a track ID. -/
def spotifyOembedUrl (track_id : String) : String :=
  "https://open.spotify.com/oembed?url=" ++
    ("https://open.spotify.com/track/" ++ track_id)

/-- Request URL built by `_fetch_youtube_oembed` from a video ID. -/
def youtubeOembedUrl (video_id : String) : String :=
  "https://www.youtube.com/oembed?url=" ++
    ("https://www.youtube.com/watch?v=" ++ video_id) ++ "&format=json"

/-- Title extraction of the Spotify branch of `on_message`
(`data.get("title", "Unknown Track")`). -/
def spotifyTitleOf (d : JsonDict) : JsonVal :=
  dictGetD d "title" (.str "Unknown Track")

/-- Title extraction of the YouTube branch of `on_message`
(`data.get("title", "Unknown")`). -/
def youtubeTitleOf (d : JsonDict) : JsonVal :=
  dictGetD d "title" (.str "Unknown")

/-- Author extraction of the YouTube branch of `on_message`
(`data.get("author_name", "")`). -/
def youtubeAuthorOf (d : JsonDict) : JsonVal :=
  dictGetD d "author_name" (.str "")

/-- Thumbnail extraction of both branches of `on_message`
(`data.get("thumbnail_url")`, whose default is `None`). -/
def thumbnailOf (d : JsonDict) : Option JsonVal :=
  dictGet d "thumbnail_url"

/-! ## URL shapes and demo data used by the claim statements -/

/-- URL shape of claim C4: `http(s)://open.spotify.com/[intl-xx/]track/<id><noise>`. -/
def spotifyUrl (https : Bool) (intl : Option (Char × Char)) (id noise : List Char) :
    List Char :=
  (if https then "https" else "http").toList ++ "://open.spotify.com/".toList ++
    (match intl with
     | some p => ['i', 'n', 't', 'l', '-', p.1, p.2, '/']
     | none => []) ++ "track/".toList ++ id ++ noise

/-- URL form 1 of claim C5: `http(s)://[www.]youtube.com/watch?<params>v=<id>`. -/
def ytWatchUrl (https www : Bool) (params id : List Char) : List Char :=
  (if https then "https" else "http").toList ++ "://".toList ++
    (if www then "www.".toList else []) ++ "youtube.com/watch?".toList ++
    params ++ 'v' :: '=' :: id

/-- URL form 2 of claim C5: `http(s)://youtu.be/<id>`. -/
def ytShortUrl (https : Bool) (id : List Char) : List Char :=
  (if https then "https" else "http").toList ++ "://youtu.be/".toList ++ id

/-- URL form 3 of claim C5: `http(s)://music.youtube.com/watch?<params>v=<id>`. -/
def ytMusicUrl (https : Bool) (params id : List Char) : List Char :=
  (if https then "https" else "http").toList ++ "://music.youtube.com/watch?".toList ++
    params ++ 'v' :: '=' :: id

/-- Contribution of one Spotify match to the embed list: one embed when the
fetch resolves, nothing when it is unavailable. -/
def renderSpotify (fetchS : List Char → Option SpotifyMeta) (showThumb : Bool)
    (id : List Char) : List Embed :=
  match fetchS id with
  | some m => [build_spotify_embed m.title m.thumbnailUrl showThumb]
  | none => []

/-- Contribution of one YouTube match to the embed list. -/
def renderYoutube (fetchY : List Char → Option YoutubeMeta) (showThumb : Bool)
    (id : List Char) : List Embed :=
  match fetchY id with
  | some m => [build_youtube_embed m.title m.authorName m.thumbnailUrl showThumb]
  | none => []

/-- Always-successful Spotify fetch oracle for the end-to-end scenario. -/
def demoFetchS : List Char → Option SpotifyMeta :=
  fun _ => some ⟨"Song Title", some "https://img/x.jpg"⟩

/-- Always-successful YouTube fetch oracle for the end-to-end scenario. -/
def demoFetchY : List Char → Option YoutubeMeta :=
  fun _ => some ⟨"Video Title", "Auth", some "https://img/y.jpg"⟩

/-- Message with five distinct valid links (two Spotify, three YouTube). -/
def demoMsg : List Char :=
  ("look https://open.spotify.com/track/aaaaaaaaaaaaaaaaaaaaaa then " ++
   "https://open.spotify.com/track/bbbbbbbbbbbbbbbbbbbbbb then " ++
   "https://youtu.be/ccccccccccc then " ++
   "https://www.youtube.com/watch?v=ddddddddddd then " ++
   "https://music.youtube.com/watch?v=eeeeeeeeeee end").toList

/-! ## Supporting lemmas and claim theorems -/

theorem expectL_append (lit rest : List Char) : expectL lit (lit ++ rest) = some rest := by
  induction lit with
  | nil => rfl
  | cons c cs ih => simp [expectL, ih]

theorem takeCount_exact (p : Char → Bool) (xs ys : List Char)
    (hall : xs.all p = true) : takeCount xs.length p (xs ++ ys) = some (xs, ys) := by
  induction xs with
  | nil => rfl
  | cons c cs ih =>
    simp only [List.all_cons, Bool.and_eq_true] at hall
    simp [takeCount, hall.1, ih hall.2]

theorem dropWhile_all (p : Char → Bool) (l : List Char) (h : l.all p = true) :
    l.dropWhile p = [] := by
  induction l with
  | nil => rfl
  | cons c cs ih =>
    simp only [List.all_cons, Bool.and_eq_true] at h
    simp [List.dropWhile, h.1, ih h.2]

theorem optS_s (rest : List Char) : optS ('s' :: rest) = rest := by simp [optS]

theorem optS_colon (rest : List Char) : optS (':' :: rest) = ':' :: rest := by simp [optS]

theorem intlCheck_t (rest : List Char) : intlCheck ('t' :: rest) = false := by
  unfold intlCheck
  have h2 : decide (('t' :: rest).take 5 = ['i', 'n', 't', 'l', '-']) = false := by
    apply decide_eq_false
    intro hEq
    rw [List.take_succ_cons] at hEq
    injection hEq with h1 _
    exact absurd h1 (by decide)
  rw [h2, Bool.false_and]

theorem optIntl_t (rest : List Char) : optIntl ('t' :: rest) = 't' :: rest := by
  simp [optIntl, intlCheck_t]

theorem optIntl_some (a b : Char) (rest : List Char) (ha : isLowerAZ a = true)
    (hb : isLowerAZ b = true) :
    optIntl ('i' :: 'n' :: 't' :: 'l' :: '-' :: a :: b :: '/' :: rest) = rest := by
  simp [optIntl, intlCheck, ha, hb]


theorem spotifyMatchAt_url (https : Bool) (intl : Option (Char × Char)) (id noise : List Char)
    (hid : id.length = 22) (hall : id.all isAlnumChar = true)
    (hintl : ∀ p, intl = some p → isLowerAZ p.1 = true ∧ isLowerAZ p.2 = true)
    (hnoise : noise.all (fun c => !isPySpace c) = true) :
    spotifyMatchAt (spotifyUrl https intl id noise) = some (id, []) := by
  have hTake : takeCount 22 isAlnumChar (id ++ noise) = some (id, noise) := by
    have h := takeCount_exact isAlnumChar id noise hall
    rwa [hid] at h
  have hDrop : noise.dropWhile (fun c => !isPySpace c) = [] := dropWhile_all _ _ hnoise
  have hColon : ∀ X : List Char,
      optS ("://open.spotify.com/".toList ++ X) = "://open.spotify.com/".toList ++ X :=
    fun X => optS_colon ("//open.spotify.com/".toList ++ X)
  have hTrk : ∀ X : List Char,
      optIntl ("track/".toList ++ X) = "track/".toList ++ X :=
    fun X => optIntl_t ("rack/".toList ++ X)
  cases intl with
  | some p =>
    obtain ⟨ha, hb⟩ := hintl p rfl
    have hOpt := optIntl_some p.1 p.2 ("track/".toList ++ (id ++ noise)) ha hb
    cases https5 : https with
    | true =>
      show spotifyMatchAt ("http".toList ++ ('s' :: ("://open.spotify.com/".toList ++
        ('i' :: 'n' :: 't' :: 'l' :: '-' :: p.1 :: p.2 :: '/' ::
          ("track/".toList ++ (id ++ noise)))))) = some (id, [])
      simp only [spotifyMatchAt, expectL_append, Option.bind_eq_bind, Option.some_bind,
        optS_s, hOpt, hTake, hDrop, Option.map_some']
    | false =>
      show spotifyMatchAt ("http".toList ++ ("://open.spotify.com/".toList ++
        ('i' :: 'n' :: 't' :: 'l' :: '-' :: p.1 :: p.2 :: '/' ::
          ("track/".toList ++ (id ++ noise))))) = some (id, [])
      simp only [spotifyMatchAt, expectL_append, Option.bind_eq_bind, Option.some_bind,
        hColon, hOpt, hTake, hDrop, Option.map_some']
  | none =>
    cases https5 : https with
    | true =>
      show spotifyMatchAt ("http".toList ++ ('s' :: ("://open.spotify.com/".toList ++
        ("track/".toList ++ (id ++ noise))))) = some (id, [])
      simp only [spotifyMatchAt, expectL_append, Option.bind_eq_bind, Option.some_bind,
        optS_s, hTrk, hTake, hDrop, Option.map_some']
    | false =>
      show spotifyMatchAt ("http".toList ++ ("://open.spotify.com/".toList ++
        ("track/".toList ++ (id ++ noise)))) = some (id, [])
      simp only [spotifyMatchAt, expectL_append, Option.bind_eq_bind, Option.some_bind,
        hColon, hTrk, hTake, hDrop, Option.map_some']

theorem scanAux_nil (M : List Char → Option (List Char × List Char)) (n : Nat) :
    scanAux M n [] = [] := by cases n <;> rfl

theorem scan_of_match_all (M : List Char → Option (List Char × List Char))
    (cs a : List Char) (h : M cs = some (a, [])) (hne : cs ≠ []) :
    scanAux M (cs.length + 1) cs = [a] := by
  match cs with
  | [] => exact absurd rfl hne
  | c :: rest =>
    show scanAux M (rest.length + 1 + 1) (c :: rest) = [a]
    rw [scanAux, h]
    simp [scanAux_nil]


theorem takeWhile_all (p : Char → Bool) (l : List Char) (h : l.all p = true) :
    l.takeWhile p = l := by
  induction l with
  | nil => rfl
  | cons c cs ih =>
    simp only [List.all_cons, Bool.and_eq_true] at h
    simp [List.takeWhile, h.1, ih h.2]

theorem idChar_nonspace (c : Char) (h : isIdChar c = true) : (!isPySpace c) = true := by
  cases hps : isPySpace c with
  | false => rfl
  | true =>
    simp only [isPySpace, Bool.or_eq_true, decide_eq_true_eq] at hps
    rcases hps with ((((h1 | h1) | h1) | h1) | h1) | h1 <;> subst h1 <;> exact absurd h (by decide)

theorem wwwCheck_head (c : Char) (rest : List Char) (h : c ≠ 'w') :
    wwwCheck (c :: rest) = false := by
  unfold wwwCheck
  apply decide_eq_false
  intro hEq
  rw [List.take_succ_cons] at hEq
  injection hEq with h1 _
  exact h h1

theorem optWww_head (c : Char) (rest : List Char) (h : c ≠ 'w') :
    optWww (c :: rest) = c :: rest := by
  simp [optWww, wwwCheck_head c rest h]

theorem wwwCheck_www (X : List Char) : wwwCheck ('w' :: 'w' :: 'w' :: '.' :: X) = true := by
  simp [wwwCheck]

theorem optWww_www (X : List Char) : optWww ('w' :: 'w' :: 'w' :: '.' :: X) = X := by
  simp [optWww, wwwCheck_www]

theorem vDescend_hit (run : List Char) (i : Nat) (h : vOk run i = true) :
    vDescend run i = some i := by
  cases i with
  | zero => simp [vDescend, h]
  | succ n => simp [vDescend, h]

theorem append_ve (params id : List Char) :
    params ++ 'v' :: '=' :: id = (params ++ ['v', '=']) ++ id :=
  (List.append_assoc params ['v', '='] id).symm

theorem drop2_take (params id : List Char) (hid : id.length = 11) :
    ((params ++ 'v' :: '=' :: id).drop (params.length + 2)).take 11 = id := by
  rw [append_ve]
  rw [List.drop_left' (by simp)]
  exact List.take_of_length_le (le_of_eq hid)

theorem vOk_at (params id : List Char) (hid : id.length = 11)
    (hall : id.all isIdChar = true) :
    vOk (params ++ 'v' :: '=' :: id) params.length = true := by
  have h1 : (params ++ 'v' :: '=' :: id)[params.length]? = some 'v' := by
    rw [List.getElem?_append_right (le_refl _)]
    simp
  have h2 : (params ++ 'v' :: '=' :: id)[params.length + 1]? = some '=' := by
    rw [List.getElem?_append_right (by omega)]
    simp
  have h3 := drop2_take params id hid
  have htake : List.take 11 id = id := List.take_of_length_le (le_of_eq hid)
  simp [vOk, h1, h2, h3, htake, hid]
  exact List.all_eq_true.mp hall

theorem vScan_append (params id : List Char)
    (hp : params.all (fun c => !isPySpace c) = true)
    (hid : id.length = 11) (hall : id.all isIdChar = true) :
    vScan (params ++ 'v' :: '=' :: id) = some (id, []) := by
  have hidns : id.all (fun c => !isPySpace c) = true := by
    rw [List.all_eq_true] at hall ⊢
    intro c hc
    exact idChar_nonspace c (hall c hc)
  have hrun : (params ++ 'v' :: '=' :: id).takeWhile (fun c => !isPySpace c) =
      params ++ 'v' :: '=' :: id := by
    apply takeWhile_all
    simp [List.all_append, hp, hidns, show isPySpace 'v' = false from rfl,
      show isPySpace '=' = false from rfl]
  have hlen : (params ++ 'v' :: '=' :: id).length = params.length + 13 := by
    simp [hid]
  simp only [vScan]
  rw [hrun, hlen]
  rw [if_neg (by omega : ¬ (params.length + 13 < 13))]
  have hP : params.length + 13 - 13 = params.length := by omega
  rw [hP, vDescend_hit _ _ (vOk_at params id hid hall)]
  show some (((params ++ 'v' :: '=' :: id).drop (params.length + 2)).take 11,
    (params ++ 'v' :: '=' :: id).drop (params.length + 13)) = some (id, [])
  rw [drop2_take params id hid]
  rw [← hlen, List.drop_length]


theorem expectL_mismatch (l c : Char) (ls cs : List Char) (h : c ≠ l) :
    expectL (l :: ls) (c :: cs) = none := by simp [expectL, h]

theorem expectL_step (a : Char) (ls cs : List Char) :
    expectL (a :: ls) (a :: cs) = expectL ls cs := by simp [expectL]

theorem expectL_watch_short (X : List Char) :
    expectL ("youtube.com/watch?".toList) ("youtu.be/".toList ++ X) = none := by
  show expectL ('y' :: 'o' :: 'u' :: 't' :: 'u' :: 'b' :: "e.com/watch?".toList)
      ('y' :: 'o' :: 'u' :: 't' :: 'u' :: '.' :: ("be/".toList ++ X)) = none
  rw [expectL_step, expectL_step, expectL_step, expectL_step, expectL_step]
  exact expectL_mismatch 'b' '.' _ _ (by decide)

theorem youtubeMatchAt_watch (https www : Bool) (params id : List Char)
    (hp : params.all (fun c => !isPySpace c) = true)
    (hid : id.length = 11) (hall : id.all isIdChar = true) :
    youtubeMatchAt (ytWatchUrl https www params id) = some (id, []) := by
  have hv := vScan_append params id hp hid hall
  have hWww : ∀ X : List Char,
      optWww ("youtube.com/watch?".toList ++ X) = "youtube.com/watch?".toList ++ X :=
    fun X => optWww_head 'y' ("outube.com/watch?".toList ++ X) (by decide)
  have hColon : ∀ X : List Char, optS ("://".toList ++ X) = "://".toList ++ X :=
    fun X => optS_colon ("//".toList ++ X)
  cases www with
  | true =>
    cases https with
    | true =>
      show youtubeMatchAt ("http".toList ++ ('s' :: ("://".toList ++
        ('w' :: 'w' :: 'w' :: '.' :: ("youtube.com/watch?".toList ++
          (params ++ 'v' :: '=' :: id)))))) = some (id, [])
      simp only [youtubeMatchAt, expectL_append, Option.bind_eq_bind, Option.some_bind,
        optS_s, optWww_www, hv, firstSome]
    | false =>
      show youtubeMatchAt ("http".toList ++ ("://".toList ++
        ('w' :: 'w' :: 'w' :: '.' :: ("youtube.com/watch?".toList ++
          (params ++ 'v' :: '=' :: id))))) = some (id, [])
      simp only [youtubeMatchAt, expectL_append, Option.bind_eq_bind, Option.some_bind,
        hColon, optWww_www, hv, firstSome]
  | false =>
    cases https with
    | true =>
      show youtubeMatchAt ("http".toList ++ ('s' :: ("://".toList ++
        ("youtube.com/watch?".toList ++ (params ++ 'v' :: '=' :: id))))) = some (id, [])
      simp only [youtubeMatchAt, expectL_append, Option.bind_eq_bind, Option.some_bind,
        optS_s, hWww, hv, firstSome]
    | false =>
      show youtubeMatchAt ("http".toList ++ ("://".toList ++
        ("youtube.com/watch?".toList ++ (params ++ 'v' :: '=' :: id)))) = some (id, [])
      simp only [youtubeMatchAt, expectL_append, Option.bind_eq_bind, Option.some_bind,
        hColon, hWww, hv, firstSome]

theorem youtubeMatchAt_short (https : Bool) (id noise : List Char)
    (hid : id.length = 11) (hall : id.all isIdChar = true)
    (hnoise : noise.all (fun c => !isPySpace c) = true) :
    youtubeMatchAt (ytShortUrl https id ++ noise) = some (id, []) := by
  have hTake : takeCount 11 isIdChar (id ++ noise) = some (id, noise) := by
    have h := takeCount_exact isIdChar id noise hall
    rwa [hid] at h
  have hDrop : noise.dropWhile (fun c => !isPySpace c) = [] := dropWhile_all _ _ hnoise
  have hWww : ∀ X : List Char,
      optWww ("youtu.be/".toList ++ X) = "youtu.be/".toList ++ X :=
    fun X => optWww_head 'y' ("outu.be/".toList ++ X) (by decide)
  have hColon : ∀ X : List Char, optS ("://".toList ++ X) = "://".toList ++ X :=
    fun X => optS_colon ("//".toList ++ X)
  have hFail1 := expectL_watch_short (id ++ noise)
  have hFail3 : expectL ("music.youtube.com/watch?".toList) ("youtu.be/".toList ++ (id ++ noise)) = none :=
    expectL_mismatch 'm' 'y' _ _ (by decide)
  cases https with
  | true =>
    show youtubeMatchAt ("http".toList ++ ('s' :: ("://".toList ++
      ("youtu.be/".toList ++ (id ++ noise))))) = some (id, [])
    simp only [youtubeMatchAt, expectL_append, Option.bind_eq_bind, Option.some_bind,
      optS_s, hWww, hFail1, hFail3, Option.none_bind, firstSome, hTake, Option.map_some', hDrop]
  | false =>
    show youtubeMatchAt ("http".toList ++ ("://".toList ++
      ("youtu.be/".toList ++ (id ++ noise)))) = some (id, [])
    simp only [youtubeMatchAt, expectL_append, Option.bind_eq_bind, Option.some_bind,
      hColon, hWww, hFail1, hFail3, Option.none_bind, firstSome, hTake, Option.map_some', hDrop]

theorem youtubeMatchAt_music (https : Bool) (params id : List Char)
    (hp : params.all (fun c => !isPySpace c) = true)
    (hid : id.length = 11) (hall : id.all isIdChar = true) :
    youtubeMatchAt (ytMusicUrl https params id) = some (id, []) := by
  have hv := vScan_append params id hp hid hall
  have hWww : ∀ X : List Char,
      optWww ("music.youtube.com/watch?".toList ++ X) = "music.youtube.com/watch?".toList ++ X :=
    fun X => optWww_head 'm' ("usic.youtube.com/watch?".toList ++ X) (by decide)
  have hColon : ∀ X : List Char, optS ("://".toList ++ X) = "://".toList ++ X :=
    fun X => optS_colon ("//".toList ++ X)
  have hFail1 : expectL ("youtube.com/watch?".toList)
      ("music.youtube.com/watch?".toList ++ (params ++ 'v' :: '=' :: id)) = none :=
    expectL_mismatch 'y' 'm' _ _ (by decide)
  have hFail2 : expectL ("youtu.be/".toList)
      ("music.youtube.com/watch?".toList ++ (params ++ 'v' :: '=' :: id)) = none :=
    expectL_mismatch 'y' 'm' _ _ (by decide)
  cases https with
  | true =>
    show youtubeMatchAt ("http".toList ++ ('s' :: ("://".toList ++
      ("music.youtube.com/watch?".toList ++ (params ++ 'v' :: '=' :: id))))) = some (id, [])
    simp only [youtubeMatchAt, expectL_append, Option.bind_eq_bind, Option.some_bind,
      optS_s, hWww, hFail1, hFail2, Option.none_bind, firstSome, hv]
  | false =>
    show youtubeMatchAt ("http".toList ++ ("://".toList ++
      ("music.youtube.com/watch?".toList ++ (params ++ 'v' :: '=' :: id)))) = some (id, [])
    simp only [youtubeMatchAt, expectL_append, Option.bind_eq_bind, Option.some_bind,
      hColon, hWww, hFail1, hFail2, Option.none_bind, firstSome, hv]


theorem matchAll_findAll (M : List Char → Option (List Char × List Char))
    (cs a : List Char) (h : M cs = some (a, [])) (hnil : M [] = none) :
    scanAux M (cs.length + 1) cs = [a] := by
  apply scan_of_match_all M cs a h
  intro hE
  rw [hE, hnil] at h
  exact Option.noConfusion h

/-- Claim C4: every text of the form `http(s)://open.spotify.com/` with an
optional `intl-xx/` prefix (two lowercase letters), then `track/`, then
exactly 22 alphanumeric characters, then arbitrary trailing non-whitespace
noise, yields exactly one extracted match whose captured ID is those 22
characters; the trailing noise is consumed by the final `\S*` and is not
part of the ID. -/
theorem spotify_extraction (https : Bool) (intl : Option (Char × Char)) (id noise : List Char)
    (hid : id.length = 22) (hall : id.all isAlnumChar = true)
    (hintl : ∀ p, intl = some p → isLowerAZ p.1 = true ∧ isLowerAZ p.2 = true)
    (hnoise : noise.all (fun c => !isPySpace c) = true) :
    spotifyFindAll (spotifyUrl https intl id noise) = [id] :=
  matchAll_findAll spotifyMatchAt _ id
    (spotifyMatchAt_url https intl id noise hid hall hintl hnoise) rfl

/-- Witness for claim C4 at a concrete URL with `intl-fr/` prefix and
trailing query noise. -/
theorem spotify_extraction_witness :
    spotifyFindAll ("https://open.spotify.com/intl-fr/track/0a1b2c3d4e5f6g7h8i9j0k?si=abc123".toList) =
      ["0a1b2c3d4e5f6g7h8i9j0k".toList] := by
  have h := spotify_extraction true (some ('f', 'r'))
    ("0a1b2c3d4e5f6g7h8i9j0k".toList) ("?si=abc123".toList)
    (by decide) (by decide)
    (fun p hp => by cases hp; exact ⟨by decide, by decide⟩)
    (by decide)
  exact h

/-- Claim C5: for every 11-character ID over `[A-Za-z0-9_-]`, each of the
three YouTube URL forms — `http(s)://[www.]youtube.com/watch?...v=ID`,
`http(s)://youtu.be/ID`, `http(s)://music.youtube.com/watch?...v=ID` —
yields a match capturing exactly that ID, also when other (whitespace-free)
query parameters precede the `v=` parameter. -/
theorem youtube_extraction (https www : Bool) (params id : List Char)
    (hid : id.length = 11) (hall : id.all isIdChar = true)
    (hp : params.all (fun c => !isPySpace c) = true) :
    youtubeFindAll (ytWatchUrl https www params id) = [id] ∧
    youtubeFindAll (ytShortUrl https id) = [id] ∧
    youtubeFindAll (ytMusicUrl https params id) = [id] := by
  refine ⟨?_, ?_, ?_⟩
  · exact matchAll_findAll youtubeMatchAt _ id
      (youtubeMatchAt_watch https www params id hp hid hall) rfl
  · have h := youtubeMatchAt_short https id [] hid hall rfl
    rw [List.append_nil] at h
    exact matchAll_findAll youtubeMatchAt _ id h rfl
  · exact matchAll_findAll youtubeMatchAt _ id
      (youtubeMatchAt_music https params id hp hid hall) rfl

/-- Witness for claim C5 at a concrete ID with a preceding `list=`
parameter. -/
theorem youtube_extraction_witness :
    youtubeFindAll ("https://www.youtube.com/watch?list=PL9&v=dQw4w9WgXcQ".toList) =
      ["dQw4w9WgXcQ".toList] ∧
    youtubeFindAll ("https://youtu.be/dQw4w9WgXcQ".toList) = ["dQw4w9WgXcQ".toList] ∧
    youtubeFindAll ("https://music.youtube.com/watch?list=PL9&v=dQw4w9WgXcQ".toList) =
      ["dQw4w9WgXcQ".toList] :=
  youtube_extraction true true ("list=PL9&".toList) ("dQw4w9WgXcQ".toList)
    (by decide) (by decide) (by decide)


theorem take_append_take {α : Type} (n : Nat) (X Y : List α) :
    ((X.take n) ++ Y).take n = (X ++ Y).take n := by
  induction n generalizing X with
  | zero => simp
  | succ n ih =>
    cases X with
    | nil => simp
    | cons x xs => simp [List.take_succ_cons, List.cons_append, ih]

theorem spotifyPass_eq (f : List Char → Option SpotifyMeta) (st : Bool) (cap : Nat)
    (ids : List (List Char)) (acc : List Embed) (h : acc.length ≤ cap) :
    spotifyPass f st cap ids acc =
      (acc ++ ids.flatMap (renderSpotify f st)).take cap := by
  induction ids generalizing acc with
  | nil => simp [spotifyPass, List.take_of_length_le h]
  | cons id rest ih =>
    by_cases hc : cap ≤ acc.length
    · have hEq : acc.length = cap := le_antisymm h hc
      rw [spotifyPass, if_pos hc, List.take_left' hEq]
    · cases hf : f id with
      | some m =>
        have h2 : (acc ++ [build_spotify_embed m.title m.thumbnailUrl st]).length ≤ cap := by
          rw [List.length_append, List.length_singleton]
          omega
        simp only [spotifyPass, if_neg hc, hf]
        rw [ih _ h2]
        simp [renderSpotify, hf, List.append_assoc]
      | none =>
        simp only [spotifyPass, if_neg hc, hf]
        rw [ih _ h]
        simp [renderSpotify, hf, List.flatMap_cons]

theorem youtubePass_eq (f : List Char → Option YoutubeMeta) (st : Bool) (cap : Nat)
    (ids : List (List Char)) (acc : List Embed) (h : acc.length ≤ cap) :
    youtubePass f st cap ids acc =
      (acc ++ ids.flatMap (renderYoutube f st)).take cap := by
  induction ids generalizing acc with
  | nil => simp [youtubePass, List.take_of_length_le h]
  | cons id rest ih =>
    by_cases hc : cap ≤ acc.length
    · have hEq : acc.length = cap := le_antisymm h hc
      rw [youtubePass, if_pos hc, List.take_left' hEq]
    · cases hf : f id with
      | some m =>
        have h2 : (acc ++ [build_youtube_embed m.title m.authorName m.thumbnailUrl st]).length ≤ cap := by
          rw [List.length_append, List.length_singleton]
          omega
        simp only [youtubePass, if_neg hc, hf]
        rw [ih _ h2]
        simp [renderYoutube, hf, List.append_assoc]
      | none =>
        simp only [youtubePass, if_neg hc, hf]
        rw [ih _ h]
        simp [renderYoutube, hf, List.flatMap_cons]

/-- Claim C1: for every message text and settings with `enabled`, the
reply assembler equals the take-`maxLinksPerMessage` prefix of the embeds
rendered from all Spotify matches followed by all YouTube matches — one
shared cap, extraction order with Spotify first, a match with unavailable
metadata contributing nothing — and the number of produced units never
exceeds `maxLinksPerMessage`.  With every fetch resolving, the prefix
consists of the units of the first `maxLinksPerMessage` matches. -/
theorem on_message_reply_assembly (settings : MsgSettings)
    (fetchS : List Char → Option SpotifyMeta) (fetchY : List Char → Option YoutubeMeta)
    (content : List Char) (hEn : settings.enabled = true) :
    onMessageEmbeds settings fetchS fetchY content =
      (((spotifyFindAll content).flatMap (renderSpotify fetchS settings.showThumbnail)) ++
        ((youtubeFindAll content).flatMap (renderYoutube fetchY settings.showThumbnail))).take
        settings.maxLinks ∧
    (onMessageEmbeds settings fetchS fetchY content).length ≤ settings.maxLinks := by
  have h1 : onMessageEmbeds settings fetchS fetchY content =
      youtubePass fetchY settings.showThumbnail settings.maxLinks (youtubeFindAll content)
        (spotifyPass fetchS settings.showThumbnail settings.maxLinks (spotifyFindAll content) []) := by
    simp [onMessageEmbeds, hEn]
  rw [spotifyPass_eq _ _ _ _ [] (by simp)] at h1
  rw [youtubePass_eq _ _ _ _ _ (List.length_take_le _ _)] at h1
  simp only [List.nil_append] at h1
  rw [take_append_take] at h1
  exact ⟨h1, by rw [h1]; exact List.length_take_le _ _⟩

set_option maxRecDepth 40000 in
/-- Witness for claim C1: the end-to-end scenario of a message holding 5
distinct valid links with `maxLinksPerMessage = 3` and all fetches
resolving yields exactly 3 units. -/
theorem on_message_reply_assembly_witness :
    (onMessageEmbeds ⟨true, true, 3⟩ demoFetchS demoFetchY demoMsg).length ≤ 3 ∧
    (onMessageEmbeds ⟨true, true, 3⟩ demoFetchS demoFetchY demoMsg).length = 3 := by
  have h := on_message_reply_assembly ⟨true, true, 3⟩ demoFetchS demoFetchY demoMsg rfl
  refine ⟨h.2, ?_⟩
  rw [h.1]
  decide


/-- Counterexample to claim C2 as stated: the code's bracket-noise pattern
accepts a closing delimiter of any type, not only the matching one, so on
`"Foo (bar] baz) qux"` it removes `(bar]` (yielding `"Foo baz) qux"`) while
the matching-delimiter reading removes `(bar] baz)` (yielding, after the
empty-result fallback, the original string). -/
theorem clean_matching_delims_refuted :
    clean_yt_title ("Foo (bar] baz) qux".toList) ≠
      cleanSpecMatching ("Foo (bar] baz) qux".toList) := by
  decide

/-- Claim C2 (amended): the cleaner applies, in order and to all
occurrences, (1) removal from every opening `(`, `[` or `{` up to the
nearest closing `)`, `]` or `}` of any type (non-greedy, delimiters need
not match, an opening bracket with no closer before a newline is kept),
(2) case-insensitive whole-word keyword removal, (3) trailing- then
leading-separator stripping, (4) whitespace collapsing and trimming, with
the empty-result fallback; in particular
`clean("Artist - Song (Official Music Video)") = "Artist - Song"`. -/
theorem clean_pipeline_steps (s : List Char) :
    clean_yt_title s =
      (let cleaned := pyStrip (collapseWs (stripLeadSep (stripTrailSep (kwSub (noiseSub s)))))
       if cleaned = [] then pyStrip s else cleaned) ∧
    clean_yt_title ("Artist - Song (Official Music Video)".toList) = "Artist - Song".toList ∧
    clean_yt_title ("Song (live) [remix] HD (x) HQ".toList) = "Song".toList ∧
    clean_yt_title ("Foo (bar] baz) qux".toList) = "Foo baz) qux".toList :=
  ⟨rfl, by decide, by decide, by decide⟩

/-- Counterexample to claim C3 as stated: on the empty title the cleaning
steps leave the empty string, and the fallback returns the trimmed original
— which is itself empty, so the cleaner can return an empty query. -/
theorem clean_nonempty_refuted : cleanYt "" = "" := by decide

/-- Claim C3 (amended): whenever the cleaning steps leave the empty
string the cleaner returns the original title trimmed, and the result is
nonempty whenever the trimmed original is nonempty; in particular
`clean("REMASTERED") = "REMASTERED"`. -/
theorem clean_fallback (s : List Char) :
    (cleanCore s = [] → clean_yt_title s = pyStrip s) ∧
    (pyStrip s ≠ [] → clean_yt_title s ≠ []) ∧
    clean_yt_title ("REMASTERED".toList) = "REMASTERED".toList := by
  refine ⟨?_, ?_, by decide⟩
  · intro h
    simp [clean_yt_title, h]
  · intro hne
    by_cases hc : cleanCore s = []
    · simpa [clean_yt_title, hc] using hne
    · simp [clean_yt_title, hc]

/-- Witness for claim C3 at `"REMASTERED"`, whose cleaning steps leave
the empty string. -/
theorem clean_fallback_witness :
    clean_yt_title ("REMASTERED".toList) = pyStrip ("REMASTERED".toList) ∧
    clean_yt_title ("REMASTERED".toList) ≠ [] :=
  ⟨(clean_fallback _).1 (by decide), (clean_fallback _).2.1 (by decide)⟩

/-- Claim C6: the stored `max_links_per_message` always lies in `[1, 10]`
after any sequence of settings commands starting from the defaults; the
setter clamps every integer at write time, storing 10 for 15 and 1 for 0. -/
theorem maxlinks_clamped (cmds : List SettingsCmd) :
    (1 ≤ (applyCmds cmds).max_links_per_message ∧
      (applyCmds cmds).max_links_per_message ≤ 10) ∧
    (∀ conf : GuildConf,
      (applyCmd conf (.maxlinks 15)).max_links_per_message = 10 ∧
      (applyCmd conf (.maxlinks 0)).max_links_per_message = 1) ∧
    (∀ (conf : GuildConf) (n : Int),
      1 ≤ (applyCmd conf (.maxlinks n)).max_links_per_message ∧
      (applyCmd conf (.maxlinks n)).max_links_per_message ≤ 10) := by
  refine ⟨?_, fun conf => ⟨by simp [applyCmd], by simp [applyCmd]⟩,
    fun conf n => ⟨?_, ?_⟩⟩
  · have key : ∀ (l : List SettingsCmd) (conf : GuildConf),
        1 ≤ conf.max_links_per_message → conf.max_links_per_message ≤ 10 →
        1 ≤ (l.foldl applyCmd conf).max_links_per_message ∧
          (l.foldl applyCmd conf).max_links_per_message ≤ 10 := by
      intro l
      induction l with
      | nil => exact fun conf h1 h2 => ⟨h1, h2⟩
      | cons cmd rest ih =>
        intro conf h1 h2
        apply ih
        · cases cmd <;> simp [applyCmd, h1]
        · cases cmd <;> simp [applyCmd, h2]
    exact key cmds defaultGuildConf (by decide) (by decide)
  · simp [applyCmd]
  · simp [applyCmd]

/-- Claim C7: a metadata fetch consumes a single request outcome with the
bounded timeout constant 10; a transport error, a timeout, or any status
other than 200 yields `none` with no retry and no partial data, and a 200
response is parsed as JSON regardless of the declared content type. -/
theorem fetch_error_handling :
    (fetchOembed .transportError = none ∧ fetchOembed .timeout = none) ∧
    (∀ (status : Nat) (body : Option JsonDict) (ct : Option String),
      status ≠ 200 → fetchOembed (.response status body ct) = none) ∧
    (∀ (body : Option JsonDict) (ct ct2 : Option String),
      fetchOembed (.response 200 body ct) = body ∧
      fetchOembed (.response 200 body ct) = fetchOembed (.response 200 body ct2)) ∧
    oembedTimeoutTotal = 10 := by
  refine ⟨⟨rfl, rfl⟩, ?_, fun body ct ct2 => ⟨by simp [fetchOembed], rfl⟩, rfl⟩
  intro status body ct h
  simp [fetchOembed, h]

/-- Witness for claim C7 at a 404 response and a timeout. -/
theorem fetch_error_handling_witness :
    fetchOembed (.response 404 (some []) none) = none ∧
    fetchOembed .timeout = none :=
  ⟨fetch_error_handling.2.1 404 (some []) none (by decide),
   fetch_error_handling.1.2⟩

/-- Claim C10: the placeholder defaults (`"Unknown Track"`, `"Unknown"`,
`""`) are used only when the key is absent from the parsed response; a key
present with a `null` value propagates `null` instead of the placeholder. -/
theorem placeholder_only_when_absent (d : JsonDict) :
    (dictGet d "title" = none →
      spotifyTitleOf d = .str "Unknown Track" ∧ youtubeTitleOf d = .str "Unknown") ∧
    (dictGet d "title" = some .null →
      spotifyTitleOf d = .null ∧ youtubeTitleOf d = .null) ∧
    (dictGet d "author_name" = none → youtubeAuthorOf d = .str "") ∧
    (dictGet d "author_name" = some .null → youtubeAuthorOf d = .null) ∧
    (∀ v, dictGet d "title" = some v → spotifyTitleOf d = v ∧ youtubeTitleOf d = v) := by
  refine ⟨?_, ?_, ?_, ?_, ?_⟩
  · intro h
    exact ⟨by simp [spotifyTitleOf, dictGetD, h], by simp [youtubeTitleOf, dictGetD, h]⟩
  · intro h
    exact ⟨by simp [spotifyTitleOf, dictGetD, h], by simp [youtubeTitleOf, dictGetD, h]⟩
  · intro h
    simp [youtubeAuthorOf, dictGetD, h]
  · intro h
    simp [youtubeAuthorOf, dictGetD, h]
  · intro v h
    exact ⟨by simp [spotifyTitleOf, dictGetD, h], by simp [youtubeTitleOf, dictGetD, h]⟩

/-- Witness for claim C10 at a dictionary with a `null` title and at an
empty dictionary. -/
theorem placeholder_only_when_absent_witness :
    spotifyTitleOf [("title", JsonVal.null)] = JsonVal.null ∧
    spotifyTitleOf [] = JsonVal.str "Unknown Track" :=
  ⟨((placeholder_only_when_absent [("title", JsonVal.null)]).2.1 (by decide)).1,
   ((placeholder_only_when_absent []).1 (by decide)).1⟩

/-- Claim C9: the rendered YouTube display unit titles the raw fetched
title (decorated with the fixed note-emoji prefix), not the normalized
one; the normalized title feeds only the Spotify search and lyrics links
inside the unit. -/
theorem youtube_embed_title_raw (raw author : String) (thumb : Option String) (st : Bool) :
    (build_youtube_embed raw author thumb st).title = "🎵  " ++ raw ∧
    (build_youtube_embed raw author thumb st).fields =
      [("🟢  Spotify", "[Search on Spotify](" ++ spotify_search (cleanYt raw) ++ ")", true),
       ("📝  Lyrics", "[Brave Search](" ++ brave_lyrics (cleanYt raw) ++ ")", true)] ∧
    (build_youtube_embed "Song (Official Video)" "A" none false).title =
      "🎵  Song (Official Video)" ∧
    cleanYt "Song (Official Video)" = "Song" :=
  ⟨rfl, rfl, by decide, by decide⟩


theorem char_toNat_lt (c : Char) : c.toNat < 1114112 := by
  rcases c.valid with h | h
  · exact Nat.lt_trans h (by norm_num)
  · exact h.2

theorem utf8Bytes_lt (c : Char) : ∀ b ∈ utf8Bytes c, b < 256 := by
  intro b hb
  have hv : c.toNat < 1114112 := char_toNat_lt c
  by_cases h1 : c.toNat < 128
  · simp [utf8Bytes, h1] at hb
    omega
  · by_cases h2 : c.toNat < 2048
    · simp [utf8Bytes, h1, h2] at hb
      omega
    · by_cases h3 : c.toNat < 65536
      · simp [utf8Bytes, h1, h2, h3] at hb
        omega
      · simp [utf8Bytes, h1, h2, h3] at hb
        omega

theorem hexDigitU_alnum (n : Nat) (h : n < 16) : isAlnumChar (hexDigitU n) = true := by
  interval_cases n <;> decide

theorem pctByte_allowed (b : Nat) (hb : b < 256) :
    ∀ c ∈ pctByte b, (isAlwaysSafe c || c = '%') = true := by
  intro c hc
  simp only [pctByte, List.mem_cons, List.not_mem_nil, or_false] at hc
  rcases hc with rfl | rfl | rfl
  · decide
  · have := hexDigitU_alnum (b / 16) (by omega)
    simp [isAlwaysSafe, this]
  · have := hexDigitU_alnum (b % 16) (by omega)
    simp [isAlwaysSafe, this]

theorem quotePlusChar_allowed (a : Char) :
    ∀ c ∈ quotePlusChar a, (isAlwaysSafe c || c = '%' || c = '+') = true := by
  intro c hc
  by_cases h1 : a = ' '
  · simp [quotePlusChar, h1] at hc
    subst hc
    decide
  · by_cases h2 : isAlwaysSafe a = true
    · simp [quotePlusChar, h1, h2] at hc
      subst hc
      simp [h2]
    · simp [quotePlusChar, h1, h2] at hc
      obtain ⟨b, hb, hcb⟩ := hc
      have hblt := utf8Bytes_lt a b hb
      have hal := pctByte_allowed b hblt c hcb
      rcases Bool.or_eq_true_iff.mp hal with h | h <;> simp [h]

theorem quoteChar_allowed (a : Char) :
    ∀ c ∈ quoteChar a, (isAlwaysSafe c || c = '%' || c = '/') = true := by
  intro c hc
  by_cases h1 : (isAlwaysSafe a || a = '/') = true
  · simp only [quoteChar, if_pos h1, List.mem_singleton] at hc
    subst hc
    rcases Bool.or_eq_true_iff.mp h1 with h | h
    · simp [h]
    · simp only [decide_eq_true_eq] at h
      subst h
      decide
  · simp only [quoteChar, if_neg h1] at hc
    obtain ⟨b, hb, hcb⟩ := List.mem_flatMap.mp hc
    have hblt := utf8Bytes_lt a b hb
    have hal := pctByte_allowed b hblt c hcb
    rcases Bool.or_eq_true_iff.mp hal with h | h <;> simp [h]

theorem quotePlus_allowed (q : String) :
    ∀ c ∈ (quotePlus q).data, (isAlwaysSafe c || c = '%' || c = '+') = true := by
  intro c hc
  obtain ⟨a, _, hca⟩ := List.mem_flatMap.mp hc
  exact quotePlusChar_allowed a c hca

theorem quoteDef_allowed (q : String) :
    ∀ c ∈ (quoteDef q).data, (isAlwaysSafe c || c = '%' || c = '/') = true := by
  intro c hc
  obtain ⟨a, _, hca⟩ := List.mem_flatMap.mp hc
  exact quoteChar_allowed a c hca

/-- Claim C8: every search-link builder totally produces its fixed
endpoint prefix plus the encoded query; the lyrics builder appends the
literal `" lyrics"` before encoding; the encoders emit only always-safe
characters, `%`-escapes, `+` (for an encoded space) and, for the
path-style Spotify search, `/` — never a raw space, `&` or unencoded `+`
from the input, as the concrete outputs for `"a&b+c d"` show. -/
theorem search_link_builders (q : String) :
    brave_lyrics q = "https://search.brave.com/search?q=" ++ quotePlus (q ++ " lyrics") ∧
    (∀ c ∈ (quotePlus q).data, (isAlwaysSafe c || c = '%' || c = '+') = true) ∧
    (∀ c ∈ (quoteDef q).data, (isAlwaysSafe c || c = '%' || c = '/') = true) ∧
    (isAlwaysSafe ' ' = false ∧ isAlwaysSafe '&' = false ∧ isAlwaysSafe '+' = false) ∧
    yt_music_search "a&b+c d" = "https://music.youtube.com/search?q=a%26b%2Bc+d" ∧
    yt_search "a&b+c d" = "https://www.youtube.com/results?search_query=a%26b%2Bc+d" ∧
    spotify_search "a&b+c d" = "https://open.spotify.com/search/a%26b%2Bc%20d" ∧
    brave_lyrics "a&b+c d" = "https://search.brave.com/search?q=a%26b%2Bc+d+lyrics" :=
  ⟨rfl, quotePlus_allowed q, quoteDef_allowed q, by decide, by decide, by decide,
   by decide, by decide⟩

/-- Witness for claim C8, instantiating the charset property and the
lyrics-suffix equation. -/
theorem search_link_builders_witness :
    (isAlwaysSafe 'a' || 'a' = '%' || 'a' = '+') = true ∧
    brave_lyrics "hello" = "https://search.brave.com/search?q=" ++ quotePlus ("hello" ++ " lyrics") :=
  ⟨(search_link_builders "a").2.1 'a' (by decide), (search_link_builders "hello").1⟩

end MusicLinker
